import Mathlib

/-!
# senv: environment composition and child-process execution

A shallow embedding of `src/senv/main.go` (`runCommand`, the `RunE` closure of
`envCmd`, and `main`).

Conventions of the embedding

* A Go `string` holding text (property keys and values, environment entries,
  command-line arguments) is a Lean `String`, that is a sequence of Unicode
  code points; keys are therefore taken to be valid UTF-8.
* A Go `[]string` that may be `nil` (`cmd.Env`) is an `Option (List String)`,
  `none` being the `nil` slice.
* The bytes a child writes are `List Nat`, one number per byte.
* A standard stream of the senv process is a `Stream`: the bytes written to it
  so far and the number of bytes it still accepts before its writes fail.
* The Go map `props` is the list of its entries in the order the `range`
  loop visits them.
* The Unicode upper-case table consulted by `unicode.ToUpper` for runes above
  ASCII belongs to the Go standard library; it is the parameter `tbl`.
* What the operating system does with a started command is the parameter
  `os : Cmd → List String → ChildRun`.
-/

namespace Senv

/-! ## The `strings` and `unicode` functions used by `runCommand` -/

/-- Go `unicode.ToUpper`: ASCII runes are handled inline (`r -= 'a' - 'A'` for
the lower-case letters, every other ASCII rune is returned as is); for the
other runes the upper-case table `tbl` is consulted. -/
def unicodeToUpper (tbl : Char → Char) (r : Char) : Char :=
  if r.toNat ≤ 127 then
    if 'a'.toNat ≤ r.toNat ∧ r.toNat ≤ 'z'.toNat then
      Char.ofNat (r.toNat - ('a'.toNat - 'A'.toNat))
    else r
  else tbl r

/-- Go `strings.ToUpper`: every rune of `s` mapped through `unicode.ToUpper`. -/
def stringsToUpper (tbl : Char → Char) (s : String) : String :=
  ⟨s.data.map (unicodeToUpper tbl)⟩

/-- The scanning loop of Go `strings.ReplaceAll` for a non-empty `old`:
`skip` counts the runes of a match that are still to be dropped; at a position
where `old` starts, `new` is emitted and the match is skipped, so matches are
taken leftmost and never overlap. -/
def replaceScan (old new : List Char) : Nat → List Char → List Char
  | _, [] => []
  | skip + 1, _ :: s => replaceScan old new skip s
  | 0, c :: s =>
    if old.isPrefixOf (c :: s) then new ++ replaceScan old new (old.length - 1) s
    else c :: replaceScan old new 0 s

/-- Go `strings.ReplaceAll s old new`: every non-overlapping instance of `old`
in `s` replaced by `new`; for an empty `old` the replacement is inserted before
every rune and at the end. -/
def stringsReplaceAll (s old new : String) : String :=
  if old.data = [] then
    ⟨new.data ++ s.data.flatMap (fun c => c :: new.data)⟩
  else ⟨replaceScan old.data new.data 0 s.data⟩

/-- Go `fmt.Sprintf("%s=%s", k, v)`. -/
def sprintfEntry (k v : String) : String := k ++ "=" ++ v

/-! ## Environment-variable names (lines 86-91 of `runCommand`) -/

/-- The name `runCommand` gives to the environment variable of property `key`
(lines 86-91). With `sanitize` set, line 88 stores `ReplaceAll(key, ".", "_")`
in `envVarKey`, line 89 overwrites it with `ReplaceAll(key, "-", "_")`
(computed from `key`, like line 88), and line 90 upper-cases it. -/
def envVarKey (tbl : Char → Char) (sanitize : Bool) (key : String) : String :=
  if sanitize then
    let _line88 := stringsReplaceAll key "." "_"
    let line89 := stringsReplaceAll key "-" "_"
    stringsToUpper tbl line89
  else key

/-- An upper-case table without any pair above ASCII. -/
def asciiCase : Char → Char := fun r => r

/-! ## The process model -/

/-- The bytes of a Go string (its UTF-8 encoding). -/
def goBytes (s : String) : List Nat :=
  s.data.flatMap (fun c => (String.utf8EncodeChar c).map UInt8.toNat)

/-- Go `exec.Cmd`, the fields `runCommand` reads or writes. `Env = none` is the
`nil` slice. -/
structure Cmd where
  Path : String
  Args : List String
  Env : Option (List String)
  deriving DecidableEq, Repr

/-- Go `exec.Command(name, arg...)`: `Args` is `name` followed by `arg`, `Env`
is left `nil`. -/
def execCommand (name : String) (arg : List String) : Cmd :=
  { Path := name, Args := name :: arg, Env := none }

/-- Go `append(env, entry)` on a slice that may be `nil`: the result is never
`nil`. -/
def goAppend (env : Option (List String)) (entry : String) : Option (List String) :=
  some (env.getD [] ++ [entry])

/-- The environment `os/exec` starts the child with: "If Env is nil, the new
process uses the current process's environment", otherwise the entries of
`Env`. (The removal of duplicate names that newer `os/exec` versions perform on
`Env` is not part of this model.) -/
def Cmd.environ (c : Cmd) (osEnviron : List String) : List String :=
  match c.Env with
  | none => osEnviron
  | some env => env

/-- Go `syscall.WaitStatus.Exited` (Linux): `w&mask == exited` with
`mask = 0x7F`, `exited = 0`. -/
def Exited (w : Nat) : Bool := w &&& 0x7F == 0

/-- Go `syscall.WaitStatus.ExitStatus` (Linux): `-1` unless `Exited`, else
`int(w>>shift) & 0xFF` with `shift = 8`. -/
def ExitStatus (w : Nat) : Int :=
  if !Exited w then -1 else ((w >>> 8) &&& 0xFF : Nat)

/-- What `cmd.Run()` returns: `nil` (with the wait status found in
`cmd.ProcessState`), an `*exec.ExitError` carrying the wait status, or any
other error (the command could not be started, or its output not copied). -/
inductive RunResult where
  | success (ws : Nat)
  | exitError (ws : Nat)
  | otherError (msg : String)
  deriving DecidableEq, Repr

/-- One run of a child process as `runCommand` sees it: the chunks of its
standard output and of its standard error, in the order they are copied, and
the result of `cmd.Run()`. -/
structure ChildRun where
  stdout : List (List Nat)
  stderr : List (List Nat)
  result : RunResult
  deriving DecidableEq, Repr

/-- A standard stream of the senv process (`os.Stdout`, `os.Stderr`): the
bytes written to it so far, and `room`, the number of further bytes it accepts
before its writes fail (`none`: it accepts every write; `some 0`: a closed
stream). -/
structure Stream where
  written : List Nat
  room : Option Nat
  deriving DecidableEq, Repr

/-- Go `(*os.File).Write(p)`: the new state of the stream and whether the
write succeeded. A write that does not fit writes the bytes that fit and
fails. -/
def Stream.Write (s : Stream) (p : List Nat) : Stream × Bool :=
  match s.room with
  | none => ({ s with written := s.written ++ p }, true)
  | some k =>
    if p.length ≤ k then ({ written := s.written ++ p, room := some (k - p.length) }, true)
    else ({ written := s.written ++ p.take k, room := some 0 }, false)

/-- Go `io.MultiWriter(stream, &buf).Write(p)`: `p` is written to the stream
first; if that write fails the call returns the error at once and the buffer
is not written, otherwise `p` is appended to the buffer (a `bytes.Buffer`
accepts every write). The result is the new state of both sinks and whether
the call succeeded. -/
def multiWrite (w : Stream × List Nat) (p : List Nat) : (Stream × List Nat) × Bool :=
  let r := w.1.Write p
  if r.2 then ((r.1, w.2 ++ p), true) else ((r.1, w.2), false)

/-- The copy loop `os/exec` runs for a stream of the child (`io.Copy` into the
writer set on `cmd.Stdout` or `cmd.Stderr`): the chunks are written one after
the other, and the loop ends at the first failed write. -/
def copyChunks : List (List Nat) → Stream × List Nat → Stream × List Nat
  | [], w => w
  | c :: cs, w =>
    let r := multiWrite w c
    if r.2 then copyChunks cs r.1 else r.1

/-- The state of the senv process that `runCommand` and `main` touch: the
package variable `errExitCode` and the two standard streams. -/
structure Proc where
  errExitCode : Int
  stdout : Stream
  stderr : Stream
  deriving DecidableEq, Repr

/-- The process state at program start: `var errExitCode = 0`, nothing written
yet, both standard streams accepting every write. -/
def Proc.init : Proc :=
  { errExitCode := 0, stdout := { written := [], room := none },
    stderr := { written := [], room := none } }

/-- How a Go call ends: by a run-time panic or by returning. -/
inductive Outcome (α : Type) where
  | panic (msg : String)
  | ret (a : α)
  deriving DecidableEq, Repr

/-- The value a call returned, if it returned. -/
def Outcome.map {α β : Type} (f : α → β) : Outcome α → Outcome β
  | .panic msg => .panic msg
  | .ret a => .ret (f a)

/-- What a returning `runCommand` leaves behind: the command it ran, the
environment the child was started with, the two capture buffers, the process
state, and the returned `error` (`none` is `nil`). -/
structure Ran where
  cmd : Cmd
  childEnv : List String
  stdoutBuf : List Nat
  stderrBuf : List Nat
  proc : Proc
  err : Option String
  deriving DecidableEq, Repr

/-- The loop of lines 85-93: one `append` to `cmd.Env` per property, in
iteration order. -/
def appendProps (tbl : Char → Char) (sanitize : Bool) (props : List (String × String))
    (cmd : Cmd) : Cmd :=
  props.foldl
    (fun c kv => { c with Env := goAppend c.Env (sprintfEntry (envVarKey tbl sanitize kv.1) kv.2) })
    cmd

/-- Go `runCommand(args, props, noSysEnv)` (lines 80-116). `sanitize` is the
package variable of that name, `osEnviron` the result of `os.Environ()`, `os`
what running a command with a given environment does, `p` the process state
at the call. With an empty `args` both operands `args[0]` and `args[1:]` of
line 81 are out of range; the program stops with the panic of the slice
expression. The error of `fmt.Printf` (line 113) is not looked at. -/
def runCommand (tbl : Char → Char) (sanitize : Bool) (osEnviron : List String)
    (os : Cmd → List String → ChildRun) (args : List String)
    (props : List (String × String)) (noSysEnv : Bool) (p : Proc) : Outcome Ran :=
  match args with
  | [] => .panic "runtime error: slice bounds out of range [1:0]"
  | name :: rest =>
    let cmd := execCommand name rest
    let cmd := if !noSysEnv then { cmd with Env := some osEnviron } else cmd
    let cmd := appendProps tbl sanitize props cmd
    let childEnv := cmd.environ osEnviron
    let run := os cmd childEnv
    let out := copyChunks run.stdout (p.stdout, [])
    let err := copyChunks run.stderr (p.stderr, [])
    let errExitCode :=
      match run.result with
      | .exitError ws => ExitStatus ws
      | .otherError _ => p.errExitCode
      | .success ws => ExitStatus ws
    let report := goBytes "\nout:\n" ++ out.2 ++ goBytes "\nerr:\n" ++ err.2 ++ goBytes "\n"
    .ret { cmd := cmd, childEnv := childEnv, stdoutBuf := out.2, stderrBuf := err.2,
           proc := { errExitCode := errExitCode, stdout := (out.1.Write report).1,
                     stderr := err.1 },
           err := none }

/-- The `RunE` closure of `envCmd` (lines 68-77): an error of `cfg.Fetch` or
of `cfg.Process` is returned at once (`fetchErr`, `processErr`; `none` is
`nil`), otherwise `runCommand` runs with `cfg.Properties`. The result is the
returned `error` and the process state. -/
def envCmdRunE (tbl : Char → Char) (sanitize : Bool) (osEnviron : List String)
    (os : Cmd → List String → ChildRun) (fetchErr processErr : Option String)
    (args : List String) (props : List (String × String)) (noSysEnv : Bool) (p : Proc) :
    Outcome (Option String × Proc) :=
  match fetchErr with
  | some e => .ret (some e, p)
  | none =>
    match processErr with
    | some e => .ret (some e, p)
    | none => (runCommand tbl sanitize osEnviron os args props noSysEnv p).map
        (fun r => (r.err, r.proc))

/-- The exit code `main` ends the program with (lines 31-37), given what
`rootCmd.Execute()` returned and the value of `errExitCode`: `os.Exit(1)` on an
error, `os.Exit(errExitCode)` if `errExitCode > 0`, and otherwise `main`
returns, which is exit code 0. -/
def mainExit (err : Option String) (errExitCode : Int) : Int :=
  if err.isSome then 1
  else if errExitCode > 0 then errExitCode
  else 0

/-- The program run as `senv env args...`: `main` calls `rootCmd.Execute()`,
which runs the `RunE` closure of `envCmd` from the initial process state; the
result is the program's exit code, or the panic that ended it. -/
def main (tbl : Char → Char) (sanitize : Bool) (osEnviron : List String)
    (os : Cmd → List String → ChildRun) (fetchErr processErr : Option String)
    (args : List String) (props : List (String × String)) (noSysEnv : Bool) : Outcome Int :=
  (envCmdRunE tbl sanitize osEnviron os fetchErr processErr args props noSysEnv Proc.init).map
    (fun r => mainExit r.1 r.2.errExitCode)

/-- A child that writes nothing and for which `cmd.Run()` returns `result`,
whatever command and environment it is started with. -/
def silentChild (result : RunResult) : Cmd → List String → ChildRun :=
  fun _ _ => { stdout := [], stderr := [], result := result }

/-! ## Lemmas on the string functions -/

/-- Scanning for a one-rune `old` and replacing it by a one-rune `new` is a
rune-wise substitution. -/
theorem replaceScan_singleton (o n : Char) (l : List Char) :
    replaceScan [o] [n] 0 l = l.map (fun c => if c = o then n else c) := by
  induction l with
  | nil => rfl
  | cons c s ih =>
    by_cases h : c = o
    · subst h
      simp [replaceScan, List.isPrefixOf, ih]
    · have h2 : ¬ o = c := fun e => h e.symm
      simp [replaceScan, List.isPrefixOf, ih, h, h2]

/-- `strings.ReplaceAll(key, "-", "_")` substitutes rune by rune. -/
theorem stringsReplaceAll_dash (k : String) :
    stringsReplaceAll k "-" "_" = ⟨k.data.map (fun c => if c = '-' then '_' else c)⟩ := by
  have h : ("-" : String).data = ['-'] := rfl
  have h2 : ("_" : String).data = ['_'] := rfl
  simp [stringsReplaceAll, h, h2, replaceScan_singleton]

/-- The sanitized name, rune by rune. -/
theorem envVarKey_true_data (tbl : Char → Char) (k : String) :
    (envVarKey tbl true k).data
      = k.data.map (fun c => unicodeToUpper tbl (if c = '-' then '_' else c)) := by
  simp [envVarKey, stringsToUpper, stringsReplaceAll_dash, List.map_map, Function.comp_def]

/-- On ASCII runes `unicode.ToUpper` does not consult the table. -/
theorem unicodeToUpper_ascii (tbl : Char → Char) (r : Char) (h : r.toNat ≤ 127) :
    unicodeToUpper tbl r = unicodeToUpper asciiCase r := by
  simp [unicodeToUpper, h]

/-- Above ASCII `unicode.ToUpper` is the table. -/
theorem unicodeToUpper_above (tbl : Char → Char) (r : Char) (h : ¬ r.toNat ≤ 127) :
    unicodeToUpper tbl r = tbl r := by
  simp [unicodeToUpper, h]

set_option maxRecDepth 100000 in
/-- The ASCII runes, checked one by one: after `-` has become `_`, upper-casing
yields an ASCII rune other than `-` that upper-casing leaves alone. -/
theorem ascii_facts : ∀ n, n < 128 →
    (unicodeToUpper asciiCase (if Char.ofNat n = '-' then '_' else Char.ofNat n)).toNat ≤ 127
    ∧ unicodeToUpper asciiCase (if Char.ofNat n = '-' then '_' else Char.ofNat n) ≠ '-'
    ∧ unicodeToUpper asciiCase
        (unicodeToUpper asciiCase (if Char.ofNat n = '-' then '_' else Char.ofNat n))
      = unicodeToUpper asciiCase (if Char.ofNat n = '-' then '_' else Char.ofNat n) := by
  decide

/-- One sanitizing step on a rune: `-` becomes `_`, then the rune is
upper-cased. -/
theorem sanitize_rune_facts (tbl : Char → Char)
    (hidem : ∀ r : Char, ¬ r.toNat ≤ 127 → unicodeToUpper tbl (tbl r) = tbl r)
    (hdash : ∀ r : Char, ¬ r.toNat ≤ 127 → tbl r ≠ '-') (c : Char) :
    unicodeToUpper tbl (if c = '-' then '_' else c) ≠ '-'
    ∧ unicodeToUpper tbl (unicodeToUpper tbl (if c = '-' then '_' else c))
      = unicodeToUpper tbl (if c = '-' then '_' else c) := by
  by_cases hc : c.toNat ≤ 127
  · have hlt : c.toNat < 128 := by omega
    have hf := ascii_facts c.toNat hlt
    rw [Char.ofNat_toNat] at hf
    obtain ⟨h1, h2, h3⟩ := hf
    have hin : (if c = '-' then '_' else c).toNat ≤ 127 := by
      split
      · decide
      · exact hc
    rw [unicodeToUpper_ascii tbl _ hin]
    refine ⟨h2, ?_⟩
    rw [unicodeToUpper_ascii tbl _ h1]
    exact h3
  · have hne : c ≠ '-' := by
      intro e
      apply hc
      rw [e]
      decide
    rw [if_neg hne, unicodeToUpper_above tbl c hc]
    exact ⟨hdash c hc, hidem c hc⟩

/-- No `-` is left in a sanitized name, provided the upper-case table never
produces one. -/
theorem dash_not_mem_envVarKey (tbl : Char → Char)
    (hdash : ∀ r : Char, ¬ r.toNat ≤ 127 → tbl r ≠ '-') (k : String) :
    '-' ∉ (envVarKey tbl true k).data := by
  rw [envVarKey_true_data]
  intro hmem
  obtain ⟨c, _, hc⟩ := List.mem_map.mp hmem
  by_cases hca : c.toNat ≤ 127
  · have hf := ascii_facts c.toNat (by omega)
    rw [Char.ofNat_toNat] at hf
    have hin : (if c = '-' then '_' else c).toNat ≤ 127 := by
      split
      · decide
      · exact hca
    rw [unicodeToUpper_ascii tbl _ hin] at hc
    exact hf.2.1 hc
  · have hne : c ≠ '-' := by
      intro e
      apply hca
      rw [e]
      decide
    rw [if_neg hne, unicodeToUpper_above tbl c hca] at hc
    exact hdash c hca hc

/-! ## Claims on the environment-variable names -/

/-- C1: at the property set `{"spring.application.name": "Senv"}` with sanitize
on, the only entry `runCommand` appends is `SPRING.APPLICATION.NAME=Senv`: the
dots of the key are kept, whatever the upper-case table and the child. -/
theorem runCommand_spring_application_name (tbl : Char → Char)
    (os : Cmd → List String → ChildRun) :
    (runCommand tbl true [] os ["echo"] [("spring.application.name", "Senv")] true
        Proc.init).map (fun r => r.cmd.Env)
      = .ret (some ["SPRING.APPLICATION.NAME=Senv"]) := by
  rfl

/-- C2: key sanitization as `runCommand` performs it is idempotent, for every
key, given an upper-case table that is idempotent above ASCII and never yields
`-` there. -/
theorem envVarKey_idempotent (tbl : Char → Char)
    (hidem : ∀ r : Char, ¬ r.toNat ≤ 127 → unicodeToUpper tbl (tbl r) = tbl r)
    (hdash : ∀ r : Char, ¬ r.toNat ≤ 127 → tbl r ≠ '-') (k : String) :
    envVarKey tbl true (envVarKey tbl true k) = envVarKey tbl true k := by
  apply String.ext
  rw [envVarKey_true_data tbl (envVarKey tbl true k), envVarKey_true_data tbl k, List.map_map]
  apply List.map_congr_left
  intro c _
  obtain ⟨h1, h2⟩ := sanitize_rune_facts tbl hidem hdash c
  simp only [Function.comp_apply]
  rw [if_neg h1]
  exact h2

/-- Witness of C2 at the table `asciiCase` and the key
`spring.cloud-config.name`. -/
theorem envVarKey_idempotent_witness :
    envVarKey asciiCase true "spring.cloud-config.name" = "SPRING.CLOUD_CONFIG.NAME"
    ∧ envVarKey asciiCase true (envVarKey asciiCase true "spring.cloud-config.name")
      = envVarKey asciiCase true "spring.cloud-config.name" :=
  ⟨by decide,
   envVarKey_idempotent asciiCase
     (fun r h => by simp [unicodeToUpper, asciiCase, h])
     (fun r h e => h (by rw [show r = '-' from e]; decide))
     "spring.cloud-config.name"⟩

/-- C10, as stated, fails: no key at all has a sanitized name that still
contains `-` (here with the table `asciiCase`); the claimed key with `.` and
`-` whose name keeps a `-` does not exist. -/
theorem no_key_keeps_dash :
    ¬ ∃ k : String, '.' ∈ k.data ∧ '-' ∈ k.data ∧ '-' ∈ (envVarKey asciiCase true k).data := by
  rintro ⟨k, _, _, h⟩
  exact dash_not_mem_envVarKey asciiCase
    (fun r hr e => hr (by rw [show r = '-' from e]; decide)) k h

/-- C10, amended: the sanitized name is the upper-cased result of replacing `-`
in the original key, the replacement of `.` being discarded; so there is a key
containing both `.` and `-` whose sanitized name still contains `.`, and no
`-`. -/
theorem some_key_keeps_dot (tbl : Char → Char) :
    (∀ k : String,
      envVarKey tbl true k = stringsToUpper tbl (stringsReplaceAll k "-" "_"))
    ∧ ∃ k : String, '.' ∈ k.data ∧ '-' ∈ k.data
        ∧ '.' ∈ (envVarKey tbl true k).data ∧ '-' ∉ (envVarKey tbl true k).data := by
  refine ⟨fun k => rfl, "a.b-c", by decide, by decide, ?_, ?_⟩
  · have h : envVarKey tbl true "a.b-c" = "A.B_C" := rfl
    rw [h]
    decide
  · have h : envVarKey tbl true "a.b-c" = "A.B_C" := rfl
    rw [h]
    decide

/-! ## Claims on the composed environment -/

/-- The loop of lines 85-93 appends one entry per property, in order, to the
entries `cmd.Env` held before. -/
theorem appendProps_env (tbl : Char → Char) (sanitize : Bool)
    (props : List (String × String)) (cmd : Cmd) :
    (appendProps tbl sanitize props cmd).Env.getD []
      = cmd.Env.getD []
        ++ props.map (fun kv => sprintfEntry (envVarKey tbl sanitize kv.1) kv.2) := by
  unfold appendProps
  induction props generalizing cmd with
  | nil => simp
  | cons kv ps ih =>
    rw [List.foldl_cons, ih]
    simp [goAppend]

/-- The name `runCommand` computes, rune by rune: the key itself without the
sanitize flag; with it, every `-` replaced by `_` and every rune upper-cased,
a `.` staying a `.`. -/
theorem envVarKey_eq (tbl : Char → Char) (sanitize : Bool) (k : String) :
    envVarKey tbl sanitize k
      = if sanitize then
          String.mk (k.data.map (fun c => unicodeToUpper tbl (if c = '-' then '_' else c)))
        else k := by
  cases sanitize
  · rfl
  · apply String.ext
    rw [envVarKey_true_data]
    rfl

/-- C3: at the property list `[("a.b", "v")]` with the sanitize flag on,
`cmd.Env` is `["A.B=v"]` with noSysEnv set and the inherited entries followed
by `A.B=v` without it: the entry is not `A_B=v`, the dot of the key is kept.
Apart from the name, the list is composed as claimed: for every property list,
inherited environment and value of both flags it is the inherited entries (none
with noSysEnv) followed by one entry `NAME=value` per property in iteration
order, `NAME` being the key without the sanitize flag and, with it, the key with
`-` replaced by `_` and upper-cased. -/
theorem runCommand_env_entries (tbl : Char → Char) (osEnviron : List String)
    (os : Cmd → List String → ChildRun) (name : String) (rest : List String) (p : Proc) :
    (runCommand tbl true osEnviron os (name :: rest) [("a.b", "v")] true p).map
        (fun r => r.cmd.Env) = .ret (some ["A.B=v"])
    ∧ (runCommand tbl true osEnviron os (name :: rest) [("a.b", "v")] false p).map
        (fun r => r.cmd.Env) = .ret (some (osEnviron ++ ["A.B=v"]))
    ∧ ∀ (sanitize noSysEnv : Bool) (props : List (String × String)),
        ∃ r, runCommand tbl sanitize osEnviron os (name :: rest) props noSysEnv p = .ret r
          ∧ r.cmd.Env.getD []
              = (if noSysEnv then [] else osEnviron)
                ++ props.map (fun kv =>
                    (if sanitize then
                      String.mk (kv.1.data.map
                        (fun c => unicodeToUpper tbl (if c = '-' then '_' else c)))
                     else kv.1) ++ "=" ++ kv.2) := by
  refine ⟨rfl, rfl, ?_⟩
  intro sanitize noSysEnv props
  refine ⟨_, rfl, ?_⟩
  have hentry : (fun kv : String × String => sprintfEntry (envVarKey tbl sanitize kv.1) kv.2)
      = fun kv => (if sanitize then
                      String.mk (kv.1.data.map
                        (fun c => unicodeToUpper tbl (if c = '-' then '_' else c)))
                     else kv.1) ++ "=" ++ kv.2 := by
    funext kv
    rw [envVarKey_eq]
    rfl
  rw [← hentry]
  cases noSysEnv <;> simp [appendProps_env, execCommand]

/-- C4: with noSysEnv set and an empty property set, `cmd.Env` is left `nil`
and the child is started with the whole inherited environment. -/
theorem runCommand_nosysenv_no_props (tbl : Char → Char) (sanitize : Bool)
    (osEnviron : List String) (os : Cmd → List String → ChildRun) (name : String)
    (rest : List String) (p : Proc) :
    (runCommand tbl sanitize osEnviron os (name :: rest) [] true p).map
        (fun r => (r.cmd.Env, r.childEnv))
      = .ret (none, osEnviron) := by
  rfl

/-! ## Claims on errors and exit codes -/

/-- C5: called with an empty argument sequence, `runCommand` panics on line 81
(`exec.Command(args[0], args[1:]...)`) instead of returning an error, and so
does the program. -/
theorem runCommand_no_args_panics (tbl : Char → Char) (sanitize : Bool)
    (osEnviron : List String) (os : Cmd → List String → ChildRun)
    (props : List (String × String)) (noSysEnv : Bool) (p : Proc) :
    runCommand tbl sanitize osEnviron os [] props noSysEnv p
      = .panic "runtime error: slice bounds out of range [1:0]"
    ∧ main tbl sanitize osEnviron os none none [] props noSysEnv
      = .panic "runtime error: slice bounds out of range [1:0]" := by
  exact ⟨rfl, rfl⟩

/-- C6: when `cmd.Run()` returns an error that is not an `*exec.ExitError`,
`runCommand` returns `nil`, leaves `errExitCode` as it was, and the program
ends with exit code 0. -/
theorem launch_failure_exits_zero (tbl : Char → Char) (sanitize : Bool)
    (osEnviron : List String) (msg name : String) (rest : List String)
    (props : List (String × String)) (noSysEnv : Bool) (p : Proc) :
    (runCommand tbl sanitize osEnviron (silentChild (.otherError msg)) (name :: rest) props
        noSysEnv p).map (fun r => (r.err, r.proc.errExitCode))
      = .ret (none, p.errExitCode)
    ∧ main tbl sanitize osEnviron (silentChild (.otherError msg)) none none (name :: rest)
        props noSysEnv
      = .ret 0 := by
  exact ⟨rfl, rfl⟩

set_option maxRecDepth 100000 in
/-- The wait status of a normal exit with status `n` is `n <<< 8`, and
`ExitStatus` reads `n` back. -/
theorem ExitStatus_exited : ∀ n, n < 256 → ExitStatus (n <<< 8) = (n : Int) := by
  decide

/-- C7: for a child that exits normally with status `n`, whether `cmd.Run()`
returns `nil` or an `*exec.ExitError`, `runCommand` returns `nil` and records
`errExitCode = n`. -/
theorem runCommand_records_exit_status (tbl : Char → Char) (sanitize : Bool)
    (osEnviron : List String) (os : Cmd → List String → ChildRun) (name : String)
    (rest : List String) (props : List (String × String)) (noSysEnv : Bool) (p : Proc)
    (n : Nat) (hn : n < 256)
    (hos : ∀ c e, (os c e).result = .success (n <<< 8)
      ∨ (os c e).result = .exitError (n <<< 8)) :
    ∃ r, runCommand tbl sanitize osEnviron os (name :: rest) props noSysEnv p = .ret r
      ∧ r.proc.errExitCode = (n : Int) ∧ r.err = none := by
  refine ⟨_, rfl, ?_, rfl⟩
  simp only []
  rcases hos _ _ with h | h
  · rw [h]
    exact ExitStatus_exited n hn
  · rw [h]
    exact ExitStatus_exited n hn

/-- Witness of C7: a child exiting with status 7. -/
theorem runCommand_records_exit_status_witness :
    ∃ r, runCommand asciiCase true ["PATH=/bin"] (silentChild (.exitError (7 <<< 8)))
        ["false"] [("a", "b")] false Proc.init = .ret r
      ∧ r.proc.errExitCode = 7 ∧ r.err = none :=
  runCommand_records_exit_status asciiCase true ["PATH=/bin"]
    (silentChild (.exitError (7 <<< 8))) "false" [] [("a", "b")] false Proc.init 7
    (by decide) (fun _ _ => Or.inr rfl)

/-- C8, as stated, fails: for a child ended by signal 9 (wait status 9)
`runCommand` records `errExitCode = -1`, yet the program ends with exit
code 0. -/
theorem signalled_child_exit_code :
    (runCommand asciiCase true ["PATH=/bin"] (silentChild (.exitError 9)) ["sleep", "60"] []
        false Proc.init).map (fun r => r.proc.errExitCode) = .ret (-1)
    ∧ main asciiCase true ["PATH=/bin"] (silentChild (.exitError 9)) none none
        ["sleep", "60"] [] false = .ret 0 := by
  decide

/-- C8, amended: when `runCommand` ran a child and recorded an `errExitCode`
that is not negative, the program ends with exactly that exit code; when the
command returns an error (from `cfg.Fetch` or `cfg.Process`), the program ends
with exit code 1, whatever the arguments. -/
theorem main_exit_code (tbl : Char → Char) (sanitize : Bool) (osEnviron : List String)
    (os : Cmd → List String → ChildRun) (args : List String)
    (props : List (String × String)) (noSysEnv : Bool) :
    (∀ r, runCommand tbl sanitize osEnviron os args props noSysEnv Proc.init = .ret r →
        0 ≤ r.proc.errExitCode →
        main tbl sanitize osEnviron os none none args props noSysEnv
          = .ret r.proc.errExitCode)
    ∧ (∀ e processErr,
        main tbl sanitize osEnviron os (some e) processErr args props noSysEnv = .ret 1)
    ∧ (∀ e, main tbl sanitize osEnviron os none (some e) args props noSysEnv = .ret 1) := by
  refine ⟨?_, fun e processErr => rfl, fun e => rfl⟩
  intro r hr h0
  have herr : r.err = none := by
    cases args with
    | nil => simp [runCommand] at hr
    | cons name rest =>
      simp only [runCommand, Outcome.ret.injEq] at hr
      rw [← hr]
  simp only [main, envCmdRunE, hr, Outcome.map, herr, mainExit]
  by_cases hpos : r.proc.errExitCode > 0
  · simp [hpos]
  · have hz : r.proc.errExitCode = 0 := by omega
    simp [hz]

/-- Witness of C8, amended: a child exiting with status 7 makes the program
end with exit code 7, and `senv env` without a command ends with exit code 1
when `cfg.Fetch` fails. -/
theorem main_exit_code_witness :
    main asciiCase true ["PATH=/bin"] (silentChild (.exitError (7 <<< 8))) none none
        ["false"] [] false = .ret 7
    ∧ main asciiCase true ["PATH=/bin"] (silentChild (.success 0)) (some "connection refused")
        none [] [] false = .ret 1 :=
  ⟨(main_exit_code asciiCase true ["PATH=/bin"] (silentChild (.exitError (7 <<< 8)))
      ["false"] [] false).1 _ rfl (by decide),
   (main_exit_code asciiCase true ["PATH=/bin"] (silentChild (.success 0)) [] []
      false).2.1 "connection refused" none⟩

/-! ## Claim on the output streams -/

/-- Copying chunks to a stream that accepts every write appends their
concatenation to the stream and to the buffer. -/
theorem copyChunks_open (chunks : List (List Nat)) (a b : List Nat) :
    copyChunks chunks ({ written := a, room := none }, b)
      = ({ written := a ++ chunks.flatten, room := none }, b ++ chunks.flatten) := by
  induction chunks generalizing a b with
  | nil => simp [copyChunks]
  | cons c cs ih => simp [copyChunks, multiWrite, Stream.Write, ih]

/-- The bytes of the three fixed parts of the report format
`"\nout:\n%s\nerr:\n%s\n"`. -/
theorem goBytes_report_parts :
    goBytes "\nout:\n" = [10, 111, 117, 116, 58, 10]
    ∧ goBytes "\nerr:\n" = [10, 101, 114, 114, 58, 10]
    ∧ goBytes "\n" = [10] := by
  decide

/-- C9, as stated, fails: with the parent's standard output closed, a child
whose standard output is `hi` followed by a newline leaves the capture buffer
empty (the write to the parent's stream fails first and the buffer is never
written), and no report reaches the parent's standard output. -/
theorem closed_stdout_capture_empty :
    (runCommand asciiCase true ["PATH=/bin"]
        (fun _ _ => { stdout := [[104, 105, 10]], stderr := [],
                      result := .otherError "write /dev/stdout: bad file descriptor" })
        ["echo", "hi"] [] false
        { errExitCode := 0, stdout := { written := [], room := some 0 },
          stderr := { written := [], room := none } }).map
      (fun r => (r.stdoutBuf, r.proc.stdout.written))
      = .ret ([], []) := by
  decide

/-- C9, amended: when the parent's standard output and standard error accept
every write, the bytes of each stream of the child reach both sinks of that
stream, identical and in order: the capture buffers hold exactly the child's
standard output `O` and standard error `E`, the parent's streams receive the
same bytes, and afterwards the report, the bytes of `"\nout:\n"`, `O`, the
bytes of `"\nerr:\n"`, `E` and a newline, is written to the parent's standard
output. -/
theorem runCommand_duplicates_streams (tbl : Char → Char) (sanitize : Bool)
    (osEnviron : List String) (os : Cmd → List String → ChildRun) (name : String)
    (rest : List String) (props : List (String × String)) (noSysEnv : Bool) (p : Proc)
    (hout : p.stdout.room = none) (herr : p.stderr.room = none) :
    ∃ r, runCommand tbl sanitize osEnviron os (name :: rest) props noSysEnv p = .ret r
      ∧ r.stdoutBuf = (os r.cmd r.childEnv).stdout.flatten
      ∧ r.stderrBuf = (os r.cmd r.childEnv).stderr.flatten
      ∧ r.proc.stdout.written
          = p.stdout.written ++ (os r.cmd r.childEnv).stdout.flatten
            ++ ([10, 111, 117, 116, 58, 10] ++ (os r.cmd r.childEnv).stdout.flatten
                ++ [10, 101, 114, 114, 58, 10] ++ (os r.cmd r.childEnv).stderr.flatten
                ++ [10])
      ∧ r.proc.stderr.written = p.stderr.written ++ (os r.cmd r.childEnv).stderr.flatten := by
  obtain ⟨code, ⟨ow, oroom⟩, ⟨ew, eroom⟩⟩ := p
  simp only at hout herr
  subst hout herr
  obtain ⟨h1, h2, h3⟩ := goBytes_report_parts
  refine ⟨_, rfl, ?_, ?_, ?_, ?_⟩ <;>
    simp [copyChunks_open, Stream.Write, h1, h2, h3]

/-- Witness of C9, amended: a child writing `hi` and a newline in two chunks to
its standard output and `!` to its standard error, both parent streams
open. -/
theorem runCommand_duplicates_streams_witness :
    ∃ r, runCommand asciiCase true ["PATH=/bin"]
          (fun _ _ => { stdout := [[104, 105], [10]], stderr := [[33]], result := .success 0 })
          ["echo", "hi"] [] false Proc.init = .ret r
      ∧ r.stdoutBuf = [104, 105, 10]
      ∧ r.stderrBuf = [33]
      ∧ r.proc.stdout.written
          = [104, 105, 10, 10, 111, 117, 116, 58, 10, 104, 105, 10, 10, 101, 114, 114, 58, 10,
             33, 10]
      ∧ r.proc.stderr.written = [33] :=
  runCommand_duplicates_streams asciiCase true ["PATH=/bin"]
    (fun _ _ => { stdout := [[104, 105], [10]], stderr := [[33]], result := .success 0 })
    "echo" ["hi"] [] false Proc.init rfl rfl

end Senv
